import Mathlib

/-
Verification development for the pg-change-logs example hook
(examples/sqlalchemy_flask.py).

The source is a SQLAlchemy before_cursor_execute hook that, before any
INSERT/UPDATE/DELETE statement, computes the current (user id, context
dict), serializes the context with json.dumps, compares the pair against a
per-connection WeakKeyDictionary cache, and when it differs stores the new
pair and issues one call
  select change_logs_set_context(%s, %s)
on the same connection.

Shallow embedding conventions:
  - Statement text is a Lean String; the Python regex
    re.compile(r"\b(insert|update|delete)\b", re.I).search(query)
    is modelled over ASCII by a left-to-right scan with word-boundary
    tracking (Python word characters restricted to ASCII [A-Za-z0-9_],
    which covers every statement this development touches).
  - A context dict is an insertion-ordered association list
    List (String, String); dict.update replaces in place or appends, as in
    CPython.  json.dumps is modelled with its default separators and
    ensure_ascii escaping (Basic Multilingual Plane; all inputs used here
    are printable ASCII).
  - The WeakKeyDictionary keyed by raw connection objects is modelled as an
    association list keyed by an abstract connection key (Nat); weak-ref
    reclamation is outside the embedding.
  - The execution environment consulted by get_change_logs_context (Flask
    request scope, background-task scope) is an explicit Env record.
  - conn.execute may raise; the hook step takes an execFails flag and
    returns an Except value, mirroring a raised exception propagating out
    of the hook with whatever cache state existed at that point.
-/

/-- Python word character, ASCII fragment: [A-Za-z0-9_]. -/
def isWordChar (c : Char) : Bool :=
  c.isAlpha || c.isDigit || c = '_'

/-- The keyword alternatives of the regex, lowercase. -/
def keywords : List (List Char) :=
  [['i', 'n', 's', 'e', 'r', 't'],
   ['u', 'p', 'd', 'a', 't', 'e'],
   ['d', 'e', 'l', 'e', 't', 'e']]

/-- Case-insensitively strip a lowercase target from the front of the text;
some rest on a match, none otherwise. -/
def kwStrip : List Char → List Char → Option (List Char)
  | [], cs => some cs
  | _ :: _, [] => none
  | k :: ks, c :: cs => if c.toLower = k then kwStrip ks cs else none

/-- Word boundary after a keyword: end of text, or a non-word character. -/
def afterBoundary : List Char → Bool
  | [] => true
  | c :: _ => !(isWordChar c)

/-- Does one of the keywords start at the head of the text, with a word
boundary after it?  (The boundary before is handled by the caller.) -/
def kwHere (cs : List Char) : Bool :=
  keywords.any fun kw =>
    match kwStrip kw cs with
    | some rest => afterBoundary rest
    | none => false

/-- Left-to-right regex scan; the Bool argument records whether the
character just before the current position is a word character (false at
the start of the text), which is exactly what a preceding word boundary
needs. -/
def searchFrom : Bool → List Char → Bool
  | _, [] => false
  | p, c :: rest => (!p && kwHere (c :: rest)) || searchFrom (isWordChar c) rest

/-- Embedding of _insert_update_delete_re.search(query) is not None, with
_insert_update_delete_re = re.compile(r"\b(insert|update|delete)\b", re.I). -/
def insert_update_delete_re_search (query : String) : Bool :=
  searchFrom false query.toList

/-- A context dict: insertion-ordered association list of string pairs. -/
abbrev Ctx := List (String × String)

/-- Python dict assignment d[k] = v: replace in place if the key is
present, else append. -/
def dictSet : Ctx → String → String → Ctx
  | [], k, v => [(k, v)]
  | (k', v') :: rest, k, v =>
    if k' = k then (k, v) :: rest else (k', v') :: dictSet rest k v

/-- Python dict.update with a literal: assign each pair in order. -/
def dictUpdate (d : Ctx) (kvs : Ctx) : Ctx :=
  kvs.foldl (fun acc kv => dictSet acc kv.1 kv.2) d

/-- Lowercase hex digit. -/
def hexDigit (n : Nat) : Char :=
  if n < 10 then Char.ofNat (48 + n) else Char.ofNat (87 + n)

/-- Four lowercase hex digits, as in json.dumps \uXXXX escapes. -/
def hex4 (n : Nat) : String :=
  ⟨[hexDigit (n / 4096 % 16), hexDigit (n / 256 % 16),
    hexDigit (n / 16 % 16), hexDigit (n % 16)]⟩

/-- json.dumps escaping of one character (default ensure_ascii=True):
named escapes for the usual control characters, \uXXXX for other
characters outside printable ASCII (Basic Multilingual Plane model). -/
def jsonEscapeChar (c : Char) : String :=
  if c = '"' then "\\\""
  else if c = '\\' then "\\\\"
  else if c = '\n' then "\\n"
  else if c = '\t' then "\\t"
  else if c = '\r' then "\\r"
  else if c = '\x08' then "\\b"
  else if c = '\x0c' then "\\f"
  else if c.toNat < 0x20 || c.toNat > 0x7e then "\\u" ++ hex4 c.toNat
  else String.singleton c

/-- json.dumps encoding of a string. -/
def jsonString (s : String) : String :=
  "\"" ++ String.join (s.toList.map jsonEscapeChar) ++ "\""

/-- Embedding of json.dumps on a dict with string keys and values, default
separators (", " and ": "), iterating in insertion order exactly as
CPython does.  Note json.dumps is called without sort_keys. -/
def json_dumps (d : Ctx) : String :=
  "\x7b" ++
    String.intercalate ", " (d.map fun kv => jsonString kv.1 ++ ": " ++ jsonString kv.2) ++
  "\x7d"

/-- The execution environment get_change_logs_context consults: an
optional Flask request scope and an optional background-task scope, with
the opaque values the xxx_ placeholder helpers would return. -/
structure Env where
  hasRequestContext : Bool
  currentUserId : Option Int
  endpoint : String
  requestId : String
  hasBackgroundTask : Bool
  taskName : String
  taskId : String

/-- Embedding of get_change_logs_context: start from (None, empty dict);
an active request scope contributes the user id plus endpoint and request
id; an active background-task scope contributes task name and task id. -/
def get_change_logs_context (e : Env) : Option Int × Ctx :=
  let current_user_id : Option Int := none
  let change_context : Ctx := []
  let step1 :=
    if e.hasRequestContext then
      (e.currentUserId,
       dictUpdate change_context [("endpoint", e.endpoint), ("rid", e.requestId)])
    else
      (current_user_id, change_context)
  let change_context :=
    if e.hasBackgroundTask then
      dictUpdate step1.2 [("task", e.taskName), ("tid", e.taskId)]
    else
      step1.2
  (step1.1, change_context)

/-- The pair cached per connection: (user id, json.dumps of the context). -/
abbrev AppliedContext := Option Int × String

/-- Abstract key identifying one raw (physical) connection. -/
abbrev ConnKey := Nat

/-- Embedding of the WeakKeyDictionary _cxn_current_context as an
association list (weak-reference reclamation is outside the model). -/
abbrev ContextCache := List (ConnKey × AppliedContext)

/-- WeakKeyDictionary.get: first entry for the key, or none. -/
def cacheGet : ContextCache → ConnKey → Option AppliedContext
  | [], _ => none
  | (k', v) :: rest, k => if k' = k then some v else cacheGet rest k

/-- Dict assignment d[k] = v on the cache: replace in place, else append. -/
def cachePut : ContextCache → ConnKey → AppliedContext → ContextCache
  | [], k, v => [(k, v)]
  | (k', v') :: rest, k, v =>
    if k' = k then (k, v) :: rest else (k', v') :: cachePut rest k v

/-- The statement text of the synchronization call the hook emits. -/
def syncQuery : String := "select change_logs_set_context(%s, %s)"

/-- One conn.execute of the synchronization statement, with its bound
parameters. -/
structure SyncCall where
  conn : ConnKey
  query : String
  user_id : Option Int
  context_str : String
deriving DecidableEq

instance : DecidableEq (Except Unit Unit)
  | .ok (), .ok () => isTrue rfl
  | .ok (), .error () => isFalse fun h => nomatch h
  | .error (), .ok () => isFalse fun h => nomatch h
  | .error (), .error () => isTrue rfl

/-- Observable outcome of one hook invocation: whether an exception
propagated, the cache afterwards, the synchronization calls that
completed, and how many times get_change_logs_context was invoked. -/
structure HookResult where
  result : Except Unit Unit
  cache : ContextCache
  calls : List SyncCall
  providerCalls : Nat
deriving DecidableEq

/-- Embedding of sqlalchemy_before_cursor_execute_set_change_logs_context.
Mirrors the source line by line: classify the statement and return if it
is not a write; call get_change_logs_context; json.dumps the context;
return if the cache already holds the computed pair; otherwise store the
new pair in the cache and then issue the synchronization call.  execFails
models conn.execute raising: the exception propagates with the cache
already updated (the assignment precedes the execute in the source). -/
def sqlalchemy_before_cursor_execute_set_change_logs_context
    (env : Env) (cache : ContextCache) (conn : ConnKey) (query : String)
    (execFails : Bool) : HookResult :=
  if !(insert_update_delete_re_search query) then
    ⟨.ok (), cache, [], 0⟩
  else
    let pr := get_change_logs_context env
    let user_id := pr.1
    let change_context_str := json_dumps pr.2
    if cacheGet cache conn = some (user_id, change_context_str) then
      ⟨.ok (), cache, [], 1⟩
    else
      let cache' := cachePut cache conn (user_id, change_context_str)
      if execFails then
        ⟨.error (), cache', [], 1⟩
      else
        ⟨.ok (), cache', [⟨conn, syncQuery, user_id, change_context_str⟩], 1⟩

/-- Run a sequence of hook invocations (connection, statement, ambient
environment), threading the cache and collecting the synchronization
calls, with every conn.execute succeeding. -/
def runTrace : ContextCache → List (ConnKey × String × Env) → ContextCache × List SyncCall
  | cache, [] => (cache, [])
  | cache, step :: rest =>
    let r := sqlalchemy_before_cursor_execute_set_change_logs_context
      step.2.2 cache step.1 step.2.1 false
    let t := runTrace r.cache rest
    (t.1, r.calls ++ t.2)

/-- The AppliedContext the hook computes for an environment: the user id
paired with the json.dumps serialization of the context dict.  This is
exactly the value compared against, and stored in, the cache. -/
def computedContext (env : Env) : AppliedContext :=
  ((get_change_logs_context env).1, json_dumps (get_change_logs_context env).2)

/-- Effective previous-character class after scanning a prefix: the word
character flag of the last character of the prefix, or the given flag when
the prefix is empty. -/
def effPrev : Bool → List Char → Bool
  | p, [] => p
  | _, c :: pre => effPrev (isWordChar c) pre

/-- Modelled from the specification wording for the Statement Classifier:
one of the keywords INSERT, UPDATE or DELETE occurs as a case-insensitive
standalone word somewhere in the text, that is, the text splits as
prefix ++ keyword ++ suffix where the keyword lowercases to a member of
the keyword set, the prefix is empty or ends in a non-word character, and
the suffix is empty or starts with a non-word character. -/
def SpecClassifierWrite (cs : List Char) : Prop :=
  ∃ pre kw post, cs = pre ++ kw ++ post ∧
    kw.map Char.toLower ∈ keywords ∧
    (pre = [] ∨ ∃ c, pre.getLast? = some c ∧ isWordChar c = false) ∧
    (post = [] ∨ ∃ c, post.head? = some c ∧ isWordChar c = false)

/-- Strict lexicographic order on key character lists, by code point:
the order in which sort_keys would emit dict keys. -/
def keyLtB : List Char → List Char → Bool
  | [], [] => false
  | [], _ :: _ => true
  | _ :: _, [] => false
  | a :: as, b :: bs => if a < b then true else if b < a then false else keyLtB as bs

/-- keyLtB is asymmetric, hence vacuously antisymmetric as a strict
order. -/
theorem keyLtB_asymm : ∀ x y, keyLtB x y = true → keyLtB y x = true → False
  | [], [], h, _ => by simp [keyLtB] at h
  | [], _ :: _, _, h2 => by simp [keyLtB] at h2
  | _ :: _, [], h1, _ => by simp [keyLtB] at h1
  | a :: as, b :: bs, h1, h2 => by
    simp only [keyLtB] at h1 h2
    by_cases hab : a < b
    · have hba : ¬ b < a := lt_asymm hab
      rw [if_neg hba, if_pos hab] at h2
      exact nomatch h2
    · by_cases hba : b < a
      · rw [if_neg hab, if_pos hba] at h1
        exact nomatch h1
      · rw [if_neg hab, if_neg hba] at h1
        rw [if_neg hba, if_neg hab] at h2
        exact keyLtB_asymm as bs h1 h2

/-- Lookup after an update: the updated key maps to the new value, every
other key is unaffected. -/
theorem cacheGet_cachePut (c : ContextCache) (k k' : ConnKey) (v : AppliedContext) :
    cacheGet (cachePut c k v) k' = if k = k' then some v else cacheGet c k' := by
  induction c with
  | nil => simp [cachePut, cacheGet]
  | cons hd tl ih =>
    obtain ⟨k₀, v₀⟩ := hd
    by_cases h1 : k₀ = k
    · subst h1
      by_cases h2 : k₀ = k'
      · subst h2
        simp [cachePut, cacheGet]
      · simp [cachePut, cacheGet, h2]
    · by_cases h2 : k₀ = k'
      · subst h2
        have hk : k ≠ k₀ := fun h => h1 h.symm
        simp [cachePut, cacheGet, h1, hk]
      · simp [cachePut, cacheGet, h1, h2, ih]

/-- Hook on a non-write statement: complete no-op, provider not called. -/
theorem hook_nonwrite (env : Env) (cache : ContextCache) (conn : ConnKey) (query : String)
    (f : Bool) (hnw : insert_update_delete_re_search query = false) :
    sqlalchemy_before_cursor_execute_set_change_logs_context env cache conn query f =
      ⟨.ok (), cache, [], 0⟩ := by
  simp [sqlalchemy_before_cursor_execute_set_change_logs_context, hnw]

/-- Hook on a write statement when the cache already holds the computed
pair: no call, cache untouched, provider called once. -/
theorem hook_write_hit (env : Env) (cache : ContextCache) (conn : ConnKey) (query : String)
    (f : Bool) (hw : insert_update_delete_re_search query = true)
    (hc : cacheGet cache conn = some (computedContext env)) :
    sqlalchemy_before_cursor_execute_set_change_logs_context env cache conn query f =
      ⟨.ok (), cache, [], 1⟩ := by
  simp only [computedContext] at hc
  simp [sqlalchemy_before_cursor_execute_set_change_logs_context, hw, hc]

/-- Hook on a write statement when the cache does not hold the computed
pair and the execute succeeds: one call, cache updated to the new pair. -/
theorem hook_write_miss (env : Env) (cache : ContextCache) (conn : ConnKey) (query : String)
    (hw : insert_update_delete_re_search query = true)
    (hc : cacheGet cache conn ≠ some (computedContext env)) :
    sqlalchemy_before_cursor_execute_set_change_logs_context env cache conn query false =
      ⟨.ok (), cachePut cache conn (computedContext env),
        [⟨conn, syncQuery, (computedContext env).1, (computedContext env).2⟩], 1⟩ := by
  simp only [computedContext] at hc
  simp [sqlalchemy_before_cursor_execute_set_change_logs_context, hw, hc, computedContext]

/-- Hook on a write statement when the cache does not hold the computed
pair and the execute raises: the exception propagates and the cache has
already been updated to the new pair (the assignment precedes the execute
in the source). -/
theorem hook_write_miss_fail (env : Env) (cache : ContextCache) (conn : ConnKey) (query : String)
    (hw : insert_update_delete_re_search query = true)
    (hc : cacheGet cache conn ≠ some (computedContext env)) :
    sqlalchemy_before_cursor_execute_set_change_logs_context env cache conn query true =
      ⟨.error (), cachePut cache conn (computedContext env), [], 1⟩ := by
  simp only [computedContext] at hc
  simp [sqlalchemy_before_cursor_execute_set_change_logs_context, hw, hc, computedContext]

/-- C1: on a write statement whose computed (identity, serialized
context) pair equals the cached AppliedContext for the connection, the
hook issues zero set_session_context calls and leaves the cache entry
(indeed the whole cache) unchanged. -/
theorem dedup_law_no_call_on_equal_context (env : Env) (cache : ContextCache)
    (conn : ConnKey) (query : String)
    (hw : insert_update_delete_re_search query = true)
    (hc : cacheGet cache conn = some (computedContext env)) :
    sqlalchemy_before_cursor_execute_set_change_logs_context env cache conn query false =
      ⟨.ok (), cache, [], 1⟩ :=
  hook_write_hit env cache conn query false hw hc

/-- C1 witness at a concrete request environment, statement and cache. -/
theorem dedup_law_no_call_on_equal_context_witness :
    sqlalchemy_before_cursor_execute_set_change_logs_context
      ⟨true, some 42, "/x", "r1", false, "", ""⟩
      [(0, computedContext ⟨true, some 42, "/x", "r1", false, "", ""⟩)]
      0 "UPDATE t SET v=2" false =
      ⟨.ok (), [(0, computedContext ⟨true, some 42, "/x", "r1", false, "", ""⟩)], [], 1⟩ :=
  dedup_law_no_call_on_equal_context
    ⟨true, some 42, "/x", "r1", false, "", ""⟩
    [(0, computedContext ⟨true, some 42, "/x", "r1", false, "", ""⟩)]
    0 "UPDATE t SET v=2" (by decide) (by decide)

/-- C2: on a write statement whose computed pair differs from the cached
value, or with no cache entry yet, the hook issues exactly one
set_session_context call carrying the computed identity and serialized
context, and the cache entry for that connection is updated to the new
pair. -/
theorem change_law_one_call_on_new_context (env : Env) (cache : ContextCache)
    (conn : ConnKey) (query : String)
    (hw : insert_update_delete_re_search query = true)
    (hc : cacheGet cache conn ≠ some (computedContext env)) :
    sqlalchemy_before_cursor_execute_set_change_logs_context env cache conn query false =
      ⟨.ok (), cachePut cache conn (computedContext env),
        [⟨conn, syncQuery, (computedContext env).1, (computedContext env).2⟩], 1⟩ ∧
    cacheGet (sqlalchemy_before_cursor_execute_set_change_logs_context
        env cache conn query false).cache conn = some (computedContext env) := by
  refine ⟨hook_write_miss env cache conn query hw hc, ?_⟩
  rw [hook_write_miss env cache conn query hw hc]
  simp [cacheGet_cachePut]

/-- C2 witness: fresh (empty) cache, concrete environment and INSERT. -/
theorem change_law_one_call_on_new_context_witness :
    sqlalchemy_before_cursor_execute_set_change_logs_context
      ⟨true, some 42, "/x", "r1", false, "", ""⟩ [] 0 "INSERT INTO t VALUES (1)" false =
      ⟨.ok (), cachePut [] 0 (computedContext ⟨true, some 42, "/x", "r1", false, "", ""⟩),
        [⟨0, syncQuery, (computedContext ⟨true, some 42, "/x", "r1", false, "", ""⟩).1,
          (computedContext ⟨true, some 42, "/x", "r1", false, "", ""⟩).2⟩], 1⟩ ∧
    cacheGet (sqlalchemy_before_cursor_execute_set_change_logs_context
        ⟨true, some 42, "/x", "r1", false, "", ""⟩ [] 0 "INSERT INTO t VALUES (1)" false).cache
        0 = some (computedContext ⟨true, some 42, "/x", "r1", false, "", ""⟩) :=
  change_law_one_call_on_new_context
    ⟨true, some 42, "/x", "r1", false, "", ""⟩ [] 0 "INSERT INTO t VALUES (1)"
    (by decide) (by decide)

/-- C5: on a statement classified as non-write the hook is a complete
no-op: zero synchronization calls, zero cache mutations, and zero
invocations of the Context Provider (get_change_logs_context). -/
theorem nonwrite_complete_noop (env : Env) (cache : ContextCache) (conn : ConnKey)
    (query : String) (f : Bool)
    (hnw : insert_update_delete_re_search query = false) :
    sqlalchemy_before_cursor_execute_set_change_logs_context env cache conn query f =
      ⟨.ok (), cache, [], 0⟩ :=
  hook_nonwrite env cache conn query f hnw

/-- C5 witness on a concrete SELECT statement. -/
theorem nonwrite_complete_noop_witness :
    sqlalchemy_before_cursor_execute_set_change_logs_context
      ⟨true, some 42, "/x", "r1", false, "", ""⟩ [(0, (none, "\x7b\x7d"))] 0
      "SELECT * FROM t" false =
      ⟨.ok (), [(0, (none, "\x7b\x7d"))], [], 0⟩ :=
  nonwrite_complete_noop
    ⟨true, some 42, "/x", "r1", false, "", ""⟩ [(0, (none, "\x7b\x7d"))] 0
    "SELECT * FROM t" false (by decide)

/-- C3 counterexample: at a concrete write statement on a fresh
connection with a failing execute, the exception does propagate, but the
cache does not stay unmodified — it already holds the new AppliedContext,
because the source assigns the cache entry before calling conn.execute.
This refutes the claim that the cache is left unmodified on failure. -/
theorem sync_failure_cache_modified_counterexample :
    (sqlalchemy_before_cursor_execute_set_change_logs_context
      ⟨true, some 42, "/x", "r1", false, "", ""⟩ [] 0 "INSERT INTO t VALUES (1)" true).result =
        .error () ∧
    (sqlalchemy_before_cursor_execute_set_change_logs_context
      ⟨true, some 42, "/x", "r1", false, "", ""⟩ [] 0 "INSERT INTO t VALUES (1)" true).cache ≠
        [] := by
  decide

/-- C3 amended: if the synchronization call fails, the failure propagates
to the caller of the hook, no completed call is recorded, but the cache
has already been updated to the new AppliedContext before the call is
issued, so after a failed call the cache records a pair whose apply did
not succeed (the source updates the cache first and treats a failed call
as fatal to the statement attempt). -/
theorem sync_failure_propagates_cache_updated (env : Env) (cache : ContextCache)
    (conn : ConnKey) (query : String)
    (hw : insert_update_delete_re_search query = true)
    (hc : cacheGet cache conn ≠ some (computedContext env)) :
    sqlalchemy_before_cursor_execute_set_change_logs_context env cache conn query true =
      ⟨.error (), cachePut cache conn (computedContext env), [], 1⟩ :=
  hook_write_miss_fail env cache conn query hw hc

/-- C3 amended witness at a concrete environment and statement. -/
theorem sync_failure_propagates_cache_updated_witness :
    sqlalchemy_before_cursor_execute_set_change_logs_context
      ⟨true, some 42, "/x", "r1", false, "", ""⟩ [] 0 "DELETE FROM t" true =
      ⟨.error (), cachePut [] 0 (computedContext ⟨true, some 42, "/x", "r1", false, "", ""⟩),
        [], 1⟩ :=
  sync_failure_propagates_cache_updated
    ⟨true, some 42, "/x", "r1", false, "", ""⟩ [] 0 "DELETE FROM t" (by decide) (by decide)

/-- C9: with no request context and no background-task context, the
provider returns (absent identity, empty context); json.dumps of the
empty dict is the two-character brace string; and the first write on a
fresh connection issues exactly one synchronization call with null
identity and that serialization, which is then cached for the
connection. -/
theorem no_environment_first_write (e : Env) (cache : ContextCache) (conn : ConnKey)
    (query : String)
    (h1 : e.hasRequestContext = false) (h2 : e.hasBackgroundTask = false)
    (hw : insert_update_delete_re_search query = true)
    (hfresh : cacheGet cache conn = none) :
    get_change_logs_context e = (none, []) ∧
    json_dumps [] = "\x7b\x7d" ∧
    sqlalchemy_before_cursor_execute_set_change_logs_context e cache conn query false =
      ⟨.ok (), cachePut cache conn (none, "\x7b\x7d"),
        [⟨conn, syncQuery, none, "\x7b\x7d"⟩], 1⟩ ∧
    cacheGet (sqlalchemy_before_cursor_execute_set_change_logs_context
        e cache conn query false).cache conn = some (none, "\x7b\x7d") := by
  have hctx : get_change_logs_context e = (none, []) := by
    simp [get_change_logs_context, h1, h2]
  have hcomp : computedContext e = (none, "\x7b\x7d") := by
    rw [computedContext, hctx]
    decide
  have hne : cacheGet cache conn ≠ some (computedContext e) := by
    rw [hfresh]
    exact fun h => nomatch h
  have hmain := hook_write_miss e cache conn query hw hne
  rw [hcomp] at hmain
  refine ⟨hctx, rfl, hmain, ?_⟩
  rw [hmain]
  simp [cacheGet_cachePut]

/-- C9 witness at a concrete environment with neither scope active. -/
theorem no_environment_first_write_witness :
    get_change_logs_context ⟨false, none, "", "", false, "", ""⟩ = (none, []) ∧
    json_dumps [] = "\x7b\x7d" ∧
    sqlalchemy_before_cursor_execute_set_change_logs_context
      ⟨false, none, "", "", false, "", ""⟩ [] 7 "INSERT INTO t VALUES (1)" false =
      ⟨.ok (), cachePut [] 7 (none, "\x7b\x7d"), [⟨7, syncQuery, none, "\x7b\x7d"⟩], 1⟩ ∧
    cacheGet (sqlalchemy_before_cursor_execute_set_change_logs_context
        ⟨false, none, "", "", false, "", ""⟩ [] 7 "INSERT INTO t VALUES (1)" false).cache 7 =
      some (none, "\x7b\x7d") :=
  no_environment_first_write ⟨false, none, "", "", false, "", ""⟩ [] 7
    "INSERT INTO t VALUES (1)" (by decide) (by decide) (by decide) (by decide)

/-- C10: the synchronization statement the hook itself emits is
classified as non-write by the Statement Classifier, and a hook
invocation on that exact statement text is a complete no-op for any
environment, cache, connection and execute outcome, so the injected
statement cannot recurse. -/
theorem sync_statement_not_write_no_recursion :
    insert_update_delete_re_search syncQuery = false ∧
    ∀ (env : Env) (cache : ContextCache) (conn : ConnKey) (f : Bool),
      sqlalchemy_before_cursor_execute_set_change_logs_context env cache conn syncQuery f =
        ⟨.ok (), cache, [], 0⟩ := by
  refine ⟨by decide, fun env cache conn f => ?_⟩
  exact hook_nonwrite env cache conn syncQuery f (by decide)

/-- C4 counterexample: two context dicts holding the same key-value pairs
in different insertion orders whose json.dumps serializations differ, so
serialization is not order-independent (json.dumps is called without
sort_keys). -/
theorem serialization_order_dependent_counterexample :
    List.Perm [("a", "1"), ("b", "2")] [("b", "2"), ("a", "1")] ∧
    json_dumps [("a", "1"), ("b", "2")] ≠ json_dumps [("b", "2"), ("a", "1")] :=
  ⟨List.Perm.swap ("b", "2") ("a", "1") [], by decide⟩

/-- C4 amended: serialization is deterministic in the insertion-ordered
contents, and two context dicts holding the same key-value pairs
serialize identically when both are in the canonical strictly-increasing
key order (lexicographic by character code point, the order sort_keys
would produce); for general insertion orders the serializations can
differ. -/
theorem serialization_deterministic_on_sorted (l₁ l₂ : Ctx)
    (hp : List.Perm l₁ l₂)
    (h₁ : List.Sorted (fun a b : String × String => keyLtB a.1.toList b.1.toList = true) l₁)
    (h₂ : List.Sorted (fun a b : String × String => keyLtB a.1.toList b.1.toList = true) l₂) :
    json_dumps l₁ = json_dumps l₂ := by
  have ha : IsAntisymm (String × String)
      (fun a b => keyLtB a.1.toList b.1.toList = true) :=
    ⟨fun a b hab hba => (keyLtB_asymm _ _ hab hba).elim⟩
  have heq : l₁ = l₂ :=
    @List.eq_of_perm_of_sorted (String × String)
      (fun a b => keyLtB a.1.toList b.1.toList = true) ha l₁ l₂ hp h₁ h₂
  rw [heq]

/-- C4 amended witness on a concrete key-sorted dict. -/
theorem serialization_deterministic_on_sorted_witness :
    json_dumps [("a", "1"), ("b", "2")] = json_dumps [("a", "1"), ("b", "2")] :=
  serialization_deterministic_on_sorted [("a", "1"), ("b", "2")] [("a", "1"), ("b", "2")]
    (List.Perm.refl _) (by decide) (by decide)

/-- Trace step on a write statement with a cache miss: the step prepends
one synchronization call and continues with the updated cache. -/
theorem runTrace_step_miss (env : Env) (cache : ContextCache) (k : ConnKey) (w : String)
    (rest : List (ConnKey × String × Env))
    (hw : insert_update_delete_re_search w = true)
    (hc : cacheGet cache k ≠ some (computedContext env)) :
    runTrace cache ((k, w, env) :: rest) =
      ((runTrace (cachePut cache k (computedContext env)) rest).1,
       ⟨k, syncQuery, (computedContext env).1, (computedContext env).2⟩ ::
         (runTrace (cachePut cache k (computedContext env)) rest).2) := by
  simp only [runTrace]
  rw [hook_write_miss env cache k w hw hc]
  rfl

/-- Trace step on a write statement with a cache hit: the step adds no
call and continues with the cache unchanged. -/
theorem runTrace_step_hit (env : Env) (cache : ContextCache) (k : ConnKey) (w : String)
    (rest : List (ConnKey × String × Env))
    (hw : insert_update_delete_re_search w = true)
    (hc : cacheGet cache k = some (computedContext env)) :
    runTrace cache ((k, w, env) :: rest) = runTrace cache rest := by
  simp only [runTrace]
  rw [hook_write_hit env cache k w false hw hc]
  rfl

/-- C7: on one fresh connection, five write statements whose computed
contexts follow the pattern [A, A, B, B, A] with A and B distinct issue
exactly three synchronization calls, one at each boundary (initial A,
switch to B, switch back to A) and none on the repeats. -/
theorem switching_trace_three_calls (envA envB : Env) (k : ConnKey) (w : String)
    (hw : insert_update_delete_re_search w = true)
    (hAB : computedContext envA ≠ computedContext envB) :
    (runTrace [] [(k, w, envA), (k, w, envA), (k, w, envB), (k, w, envB), (k, w, envA)]).2 =
      [⟨k, syncQuery, (computedContext envA).1, (computedContext envA).2⟩,
       ⟨k, syncQuery, (computedContext envB).1, (computedContext envB).2⟩,
       ⟨k, syncQuery, (computedContext envA).1, (computedContext envA).2⟩] := by
  have h1 : cacheGet ([] : ContextCache) k ≠ some (computedContext envA) := by
    simp [cacheGet]
  have h2 : cacheGet (cachePut [] k (computedContext envA)) k =
      some (computedContext envA) := by
    simp [cacheGet_cachePut]
  have h3 : cacheGet (cachePut [] k (computedContext envA)) k ≠
      some (computedContext envB) := by
    rw [cacheGet_cachePut, if_pos rfl]
    exact fun h => hAB (Option.some.inj h)
  have h4 : cacheGet (cachePut (cachePut [] k (computedContext envA)) k
      (computedContext envB)) k = some (computedContext envB) := by
    simp [cacheGet_cachePut]
  have h5 : cacheGet (cachePut (cachePut [] k (computedContext envA)) k
      (computedContext envB)) k ≠ some (computedContext envA) := by
    rw [cacheGet_cachePut, if_pos rfl]
    exact fun h => hAB (Option.some.inj h).symm
  rw [runTrace_step_miss envA [] k w _ hw h1]
  rw [runTrace_step_hit envA _ k w _ hw h2]
  rw [runTrace_step_miss envB _ k w _ hw h3]
  rw [runTrace_step_hit envB _ k w _ hw h4]
  rw [runTrace_step_miss envA _ k w _ hw h5]
  rfl

/-- C7 witness: the empty environment against a request environment. -/
theorem switching_trace_three_calls_witness :
    (runTrace []
      [(0, "INSERT INTO t VALUES (1)", (⟨false, none, "", "", false, "", ""⟩ : Env)),
       (0, "INSERT INTO t VALUES (1)", (⟨false, none, "", "", false, "", ""⟩ : Env)),
       (0, "INSERT INTO t VALUES (1)", (⟨true, some 42, "/x", "r1", false, "", ""⟩ : Env)),
       (0, "INSERT INTO t VALUES (1)", (⟨true, some 42, "/x", "r1", false, "", ""⟩ : Env)),
       (0, "INSERT INTO t VALUES (1)", (⟨false, none, "", "", false, "", ""⟩ : Env))]).2 =
      [⟨0, syncQuery, (computedContext ⟨false, none, "", "", false, "", ""⟩).1,
        (computedContext ⟨false, none, "", "", false, "", ""⟩).2⟩,
       ⟨0, syncQuery, (computedContext ⟨true, some 42, "/x", "r1", false, "", ""⟩).1,
        (computedContext ⟨true, some 42, "/x", "r1", false, "", ""⟩).2⟩,
       ⟨0, syncQuery, (computedContext ⟨false, none, "", "", false, "", ""⟩).1,
        (computedContext ⟨false, none, "", "", false, "", ""⟩).2⟩] :=
  switching_trace_three_calls
    ⟨false, none, "", "", false, "", ""⟩ ⟨true, some 42, "/x", "r1", false, "", ""⟩
    0 "INSERT INTO t VALUES (1)" (by decide) (by decide)

/-- Every hook invocation either leaves the cache exactly as it was or
replaces it with a single-key update. -/
theorem hook_cache_unchanged_or_put (env : Env) (cache : ContextCache) (conn : ConnKey)
    (query : String) (f : Bool) :
    (sqlalchemy_before_cursor_execute_set_change_logs_context
        env cache conn query f).cache = cache ∨
    ∃ v, (sqlalchemy_before_cursor_execute_set_change_logs_context
        env cache conn query f).cache = cachePut cache conn v := by
  by_cases hq : insert_update_delete_re_search query = true
  · by_cases hc : cacheGet cache conn =
        some ((get_change_logs_context env).1, json_dumps (get_change_logs_context env).2)
    · left
      simp [sqlalchemy_before_cursor_execute_set_change_logs_context, hq, hc]
    · right
      refine ⟨((get_change_logs_context env).1, json_dumps (get_change_logs_context env).2), ?_⟩
      by_cases hf : f = true
      · simp [sqlalchemy_before_cursor_execute_set_change_logs_context, hq, hc, hf]
      · simp [sqlalchemy_before_cursor_execute_set_change_logs_context, hq, hc, hf]
  · left
    simp [sqlalchemy_before_cursor_execute_set_change_logs_context, hq]

/-- A hook invocation never removes a cache entry: any key present before
is still present after. -/
theorem hook_cache_isSome (env : Env) (cache : ContextCache) (conn : ConnKey)
    (query : String) (f : Bool) (k : ConnKey)
    (h : (cacheGet cache k).isSome = true) :
    (cacheGet (sqlalchemy_before_cursor_execute_set_change_logs_context
        env cache conn query f).cache k).isSome = true := by
  rcases hook_cache_unchanged_or_put env cache conn query f with hc | ⟨v, hc⟩
  · rw [hc]
    exact h
  · rw [hc, cacheGet_cachePut]
    by_cases hk : conn = k
    · simp [hk]
    · simp [hk, h]

/-- C8: per-connection state machine safety — once a connection has a
cache entry (state Applied), no sequence of hook invocations removes it:
after any trace the key is still present, an entry being only ever
created or overwritten. -/
theorem applied_state_never_unset (trace : List (ConnKey × String × Env))
    (cache : ContextCache) (k : ConnKey)
    (h : (cacheGet cache k).isSome = true) :
    (cacheGet (runTrace cache trace).1 k).isSome = true := by
  induction trace generalizing cache with
  | nil => exact h
  | cons s rest ih =>
    simp only [runTrace]
    exact ih _ (hook_cache_isSome s.2.2 cache s.1 s.2.1 false k h)

/-- C8 witness: a populated entry survives a mixed concrete trace. -/
theorem applied_state_never_unset_witness :
    (cacheGet (runTrace [(0, (none, "\x7b\x7d"))]
      [(0, "UPDATE t SET v=2", (⟨true, some 42, "/x", "r1", false, "", ""⟩ : Env)),
       (1, "INSERT INTO t VALUES (1)", (⟨false, none, "", "", false, "", ""⟩ : Env)),
       (0, "SELECT * FROM t", (⟨false, none, "", "", false, "", ""⟩ : Env))]).1 0).isSome =
      true :=
  applied_state_never_unset
    [(0, "UPDATE t SET v=2", (⟨true, some 42, "/x", "r1", false, "", ""⟩ : Env)),
     (1, "INSERT INTO t VALUES (1)", (⟨false, none, "", "", false, "", ""⟩ : Env)),
     (0, "SELECT * FROM t", (⟨false, none, "", "", false, "", ""⟩ : Env))]
    [(0, (none, "\x7b\x7d"))] 0 (by decide)

/-- Characterization of kwStrip: it succeeds exactly on texts whose
prefix lowercases to the target, returning the suffix after it. -/
theorem kwStrip_eq_some_iff (target : List Char) : ∀ (cs rest : List Char),
    kwStrip target cs = some rest ↔
      ∃ kw, cs = kw ++ rest ∧ kw.map Char.toLower = target := by
  induction target with
  | nil =>
    intro cs rest
    constructor
    · intro h
      refine ⟨[], ?_, rfl⟩
      simpa [kwStrip] using h
    · rintro ⟨kw, h1, h2⟩
      have hk : kw = [] := List.map_eq_nil_iff.mp h2
      subst hk
      simp [kwStrip, h1]
  | cons t ts ih =>
    intro cs rest
    cases cs with
    | nil =>
      constructor
      · intro h
        exact absurd h (by simp [kwStrip])
      · rintro ⟨kw, h1, h2⟩
        obtain ⟨hk, _⟩ := List.append_eq_nil.mp h1.symm
        subst hk
        simp at h2
    | cons c cs' =>
      constructor
      · intro h
        simp only [kwStrip] at h
        by_cases hc : c.toLower = t
        · rw [if_pos hc] at h
          obtain ⟨kw, h1, h2⟩ := (ih cs' rest).mp h
          exact ⟨c :: kw, by simp [h1], by simp [h2, hc]⟩
        · rw [if_neg hc] at h
          exact absurd h (by simp)
      · rintro ⟨kw, h1, h2⟩
        cases kw with
        | nil => simp at h2
        | cons d kw' =>
          have hcd : c = d ∧ cs' = kw' ++ rest := by simpa using h1
          have h2' : d.toLower = t ∧ kw'.map Char.toLower = ts := by simpa using h2
          simp only [kwStrip]
          rw [hcd.1, if_pos h2'.1]
          exact (ih cs' rest).mpr ⟨kw', hcd.2, h2'.2⟩

/-- Characterization of kwHere: a keyword starts at the head of the text
with a word boundary after it. -/
theorem kwHere_iff (cs : List Char) :
    kwHere cs = true ↔
      ∃ kw post, cs = kw ++ post ∧ kw.map Char.toLower ∈ keywords ∧
        afterBoundary post = true := by
  unfold kwHere
  rw [List.any_eq_true]
  constructor
  · rintro ⟨target, htarget, hmatch⟩
    cases hs : kwStrip target cs with
    | none =>
      rw [hs] at hmatch
      simp at hmatch
    | some rest =>
      rw [hs] at hmatch
      obtain ⟨kw, h1, h2⟩ := (kwStrip_eq_some_iff target cs rest).mp hs
      exact ⟨kw, rest, h1, h2 ▸ htarget, hmatch⟩
  · rintro ⟨kw, post, h1, h2, h3⟩
    refine ⟨kw.map Char.toLower, h2, ?_⟩
    have hs : kwStrip (kw.map Char.toLower) cs = some post :=
      (kwStrip_eq_some_iff _ cs post).mpr ⟨kw, h1, rfl⟩
    rw [hs]
    exact h3

/-- Scanning past a nonempty prefix: the effective previous character
class is the class of the last character of the prefix. -/
theorem effPrev_concat (p : Bool) (l : List Char) (c : Char) :
    effPrev p (l ++ [c]) = isWordChar c := by
  induction l generalizing p with
  | nil => rfl
  | cons d l ih => exact ih (isWordChar d)

/-- The effective previous character is non-word (starting from a
non-word state) exactly when the prefix is empty or ends in a non-word
character: the word-boundary condition before a match. -/
theorem effPrev_false_iff (pre : List Char) :
    effPrev false pre = false ↔
      (pre = [] ∨ ∃ c, pre.getLast? = some c ∧ isWordChar c = false) := by
  rcases List.eq_nil_or_concat pre with h | ⟨l, c, h⟩
  · subst h
    simp [effPrev]
  · subst h
    simp only [List.concat_eq_append]
    rw [effPrev_concat]
    constructor
    · intro hw
      exact .inr ⟨c, by simp, hw⟩
    · rintro (h | ⟨c', hc', hw⟩)
      · exact absurd h (by simp)
      · have hcc : c' = c := by
          rw [List.getLast?_concat] at hc'
          exact (Option.some.inj hc').symm
        exact hcc ▸ hw

/-- The boundary after a match holds exactly when the suffix is empty or
starts with a non-word character. -/
theorem afterBoundary_iff (post : List Char) :
    afterBoundary post = true ↔
      (post = [] ∨ ∃ c, post.head? = some c ∧ isWordChar c = false) := by
  cases post with
  | nil => simp [afterBoundary]
  | cons c rest => simp [afterBoundary]

/-- Full characterization of the regex scan: a match exists somewhere in
the text, with word boundaries on both sides, the boundary before the
text start governed by the initial scan state. -/
theorem searchFrom_iff (cs : List Char) : ∀ (p : Bool),
    searchFrom p cs = true ↔
      ∃ pre kw post, cs = pre ++ kw ++ post ∧
        kw.map Char.toLower ∈ keywords ∧
        effPrev p pre = false ∧
        afterBoundary post = true := by
  induction cs with
  | nil =>
    intro p
    constructor
    · intro h
      exact absurd h (by simp [searchFrom])
    · rintro ⟨pre, kw, post, h1, h2, h3, h4⟩
      obtain ⟨h5, h6⟩ := List.append_eq_nil.mp h1.symm
      obtain ⟨h7, h8⟩ := List.append_eq_nil.mp h5
      subst h8
      exact absurd h2 (by decide)
  | cons c rest ih =>
    intro p
    constructor
    · intro h
      simp only [searchFrom, Bool.or_eq_true, Bool.and_eq_true] at h
      rcases h with ⟨hp, hk⟩ | hs
      · obtain ⟨kw, post, h1, h2, h3⟩ := (kwHere_iff _).mp hk
        refine ⟨[], kw, post, by simp [h1], h2, ?_, h3⟩
        cases p
        · rfl
        · exact absurd hp (by simp)
      · obtain ⟨pre, kw, post, h1, h2, h3, h4⟩ := (ih (isWordChar c)).mp hs
        exact ⟨c :: pre, kw, post, by simp [h1], h2, h3, h4⟩
    · rintro ⟨pre, kw, post, h1, h2, h3, h4⟩
      simp only [searchFrom, Bool.or_eq_true, Bool.and_eq_true]
      cases pre with
      | nil =>
        left
        constructor
        · cases p
          · rfl
          · exact absurd h3 (by simp [effPrev])
        · exact (kwHere_iff _).mpr ⟨kw, post, by simpa using h1, h2, h4⟩
      | cons c' pre' =>
        right
        have h1' : c = c' ∧ rest = pre' ++ kw ++ post := by simpa using h1
        refine (ih (isWordChar c)).mpr ⟨pre', kw, post, h1'.2, h2, ?_, h4⟩
        rw [h1'.1]
        exact h3

/-- C6: the Statement Classifier returns true exactly when one of the
keywords INSERT, UPDATE or DELETE occurs as a case-insensitive standalone
word anywhere in the statement text (delimited by non-word characters or
by the text ends, so CTE- or comment-prefixed statements still classify
as writes), and false otherwise. -/
theorem classifier_standalone_keyword (query : String) :
    insert_update_delete_re_search query = true ↔ SpecClassifierWrite query.toList := by
  unfold insert_update_delete_re_search SpecClassifierWrite
  rw [searchFrom_iff query.toList false]
  constructor
  · rintro ⟨pre, kw, post, h1, h2, h3, h4⟩
    exact ⟨pre, kw, post, h1, h2,
      (effPrev_false_iff pre).mp h3, (afterBoundary_iff post).mp h4⟩
  · rintro ⟨pre, kw, post, h1, h2, h3, h4⟩
    exact ⟨pre, kw, post, h1, h2,
      (effPrev_false_iff pre).mpr h3, (afterBoundary_iff post).mpr h4⟩

